import Mathlib

/-!
Shallow embedding of the waste-collection backend (Express + Mongoose app,
three snapshots; the most advanced one is src/backend/index.js) and proofs
about the claims of its specification.

The persistent database is modelled as explicit state (lists of records with
an id counter), each HTTP handler as a pure function from the state and the
request to a response and the new state.  External collaborators (JWT
verification and signing, bcrypt hashing and comparison) are parameters
gathered in the structure `Ext`, since the code delegates them entirely to
libraries.
-/

namespace Waste

/-- A pickup record, pickupSchema of src/backend/index.js lines 39-44:
wasteType and address are plain (optional) strings, status defaults to
"Pending".  The id models the MongoDB document id, an opaque string. -/
structure Pickup where
  id : String
  wasteType : Option String
  address : Option String
  status : String
deriving Repr, DecidableEq

/-- A user account, userSchema of src/backend/index.js lines 22-26:
unique email, hashed password, role among user, driver, admin, ngo. -/
structure User where
  id : Nat
  email : String
  password : String
  role : String
deriving Repr, DecidableEq

/-- An NGO profile, ngoSchema of src/backend/index.js lines 49-54:
a link to the login account, a name and a description. -/
structure Ngo where
  id : Nat
  user : Nat
  name : String
  description : String
deriving Repr, DecidableEq

/-- A donation record, donationSchema of src/backend/index.js lines 59-65. -/
structure Donation where
  amount : Int
  donor : Nat
  ngo : Nat
deriving Repr, DecidableEq

/-- The whole persistent state: the four collections plus fresh-id counters
standing in for MongoDB object-id generation. -/
structure DB where
  users : List User
  pickups : List Pickup
  ngos : List Ngo
  donations : List Donation
  nextUserId : Nat
  nextPickupId : Nat
  nextNgoId : Nat
deriving Repr, DecidableEq

/-- The payload jwt.sign puts into a token and jwt.verify recovers
(src/backend/index.js line 138): the user id and the role. -/
structure Claims where
  userId : Nat
  role : String
deriving Repr, DecidableEq

/-- The external library collaborators: jwt.verify, jwt.sign, bcrypt hashing
and bcrypt.compare.  They are opaque parameters of the model. -/
structure Ext where
  verify : String → Option Claims
  sign : Claims → String
  hash : String → String
  compare : String → String → Bool

/-- JavaScript falsiness for an optional string field of a request body:
`!x` is true exactly when the field is absent or the empty string. -/
def falsy (o : Option String) : Bool := o.getD "" == ""

/-- token.split(' ')[1] of the auth middleware, src/backend/index.js line 160:
the second space-separated component of the Authorization header, if any. -/
def tokenString (hdr : String) : Option String := (hdr.splitOn " ").get? 1

/-- The authentication middleware, src/backend/index.js lines 154-167.
Returns the decoded claims when the header is present and the extracted token
verifies; `none` is the 401 outcome (no token, no token string after the
split, or jwt.verify throwing). -/
def authMiddleware (verify : String → Option Claims) (hdr : Option String) :
    Option Claims :=
  match hdr with
  | none => none
  | some h =>
    match tokenString h with
    | none => none
    | some t => verify t

/-- Response bodies, reduced to the payloads the handlers send (message-only
bodies are collapsed to `msg`). -/
inductive Body where
  | msg
  | loginOk (token email role : String)
  | pickupsList (ps : List Pickup)
  | pickupOne (p : Pickup)
  | ngosList (ns : List Ngo)
  | donationsList (ds : List Donation)
deriving Repr, DecidableEq

/-- An HTTP response: status code and body. -/
structure Resp where
  status : Nat
  body : Body
deriving Repr, DecidableEq

/-- Request body of POST /api/auth/register.  The role field can be supplied
by a client but the handler never reads it (it destructures only email and
password, src/backend/index.js line 75). -/
structure RegisterBody where
  email : Option String
  password : Option String
  role : Option String
deriving Repr, DecidableEq

/-- Request body of POST /api/auth/register-ngo, src/backend/index.js line 94. -/
structure RegisterNgoBody where
  email : Option String
  password : Option String
  name : Option String
  description : Option String
deriving Repr, DecidableEq

/-- Request body of POST /api/schedule, src/backend/index.js line 197. -/
structure ScheduleBody where
  wasteType : Option String
  address : Option String
deriving Repr, DecidableEq

/-- The HTTP surface of src/backend/index.js: one constructor per route,
carrying the Authorization header for the protected ones. -/
inductive Req where
  | hello
  | register (body : RegisterBody)
  | registerNgo (body : RegisterNgoBody)
  | login (email password : Option String)
  | getPickups (auth : Option String)
  | schedule (auth : Option String) (body : ScheduleBody)
  | complete (auth : Option String) (id : String)
  | driverRoute (auth : Option String)
  | getNgos (auth : Option String)
  | donate (auth : Option String) (ngoId : Nat) (amount : Int)
  | donationsAdmin (auth : Option String)
  | donationsNgo (auth : Option String)
deriving Repr, DecidableEq

/-- POST /api/auth/register, src/backend/index.js lines 73-89: validate the
two fields, refuse an existing email with 400, otherwise store a new account
with the hashed password and the fixed role "user". -/
def registerHandler (ext : Ext) (db : DB) (b : RegisterBody) : Resp × DB :=
  if falsy b.email || falsy b.password then (⟨400, .msg⟩, db)
  else
    match db.users.find? (fun u => u.email == b.email.getD "") with
    | some _ => (⟨400, .msg⟩, db)
    | none =>
      let u : User :=
        ⟨db.nextUserId, b.email.getD "", ext.hash (b.password.getD ""), "user"⟩
      (⟨201, .msg⟩,
        { db with users := db.users ++ [u], nextUserId := db.nextUserId + 1 })

/-- POST /api/auth/register-ngo, src/backend/index.js lines 92-121: validate
email, password and name, refuse an existing email with 400, otherwise create
one user with role "ngo" and one linked NGO profile (the description falls
back to the schema default when absent). -/
def registerNgoHandler (ext : Ext) (db : DB) (b : RegisterNgoBody) : Resp × DB :=
  if falsy b.email || falsy b.password || falsy b.name then (⟨400, .msg⟩, db)
  else
    match db.users.find? (fun u => u.email == b.email.getD "") with
    | some _ => (⟨400, .msg⟩, db)
    | none =>
      let u : User :=
        ⟨db.nextUserId, b.email.getD "", ext.hash (b.password.getD ""), "ngo"⟩
      let n : Ngo :=
        ⟨db.nextNgoId, u.id, b.name.getD "",
          b.description.getD "This NGO is dedicated to helping the community."⟩
      (⟨201, .msg⟩,
        { db with
            users := db.users ++ [u]
            ngos := db.ngos ++ [n]
            nextUserId := db.nextUserId + 1
            nextNgoId := db.nextNgoId + 1 })

/-- POST /api/auth/login, src/backend/index.js lines 124-148: validate the
fields, look the user up by email, compare the password against the stored
hash, and on success issue a signed token.  The state is never modified. -/
def loginHandler (ext : Ext) (db : DB) (email password : Option String) :
    Resp × DB :=
  if falsy email || falsy password then (⟨400, .msg⟩, db)
  else
    match db.users.find? (fun u => u.email == email.getD "") with
    | none => (⟨400, .msg⟩, db)
    | some u =>
      if ext.compare (password.getD "") u.password then
        (⟨200, .loginOk (ext.sign ⟨u.id, u.role⟩) u.email u.role⟩, db)
      else (⟨400, .msg⟩, db)

/-- The pickup update performed by PATCH /api/pickups/:id/complete,
src/backend/index.js line 214: overwrite the status with "Completed". -/
def completePickup (p : Pickup) : Pickup := { p with status := "Completed" }

/-- PATCH /api/pickups/:id/complete after the role gate, src/backend/index.js
lines 212-219: findByIdAndUpdate with status Completed; 404 when no pickup
has the id, otherwise 200 with the updated document. -/
def completeHandler (db : DB) (pid : String) : Resp × DB :=
  match db.pickups.find? (fun p => p.id == pid) with
  | none => (⟨404, .msg⟩, db)
  | some p =>
    (⟨200, .pickupOne (completePickup p)⟩,
      { db with
          pickups :=
            db.pickups.map (fun q => if q.id == pid then completePickup q else q) })

/-- POST /api/schedule after the role gate in src/backend/index.js lines
196-201: this snapshot has NO presence check on wasteType and address (the
earlier snapshots have one); it unconditionally stores a new pickup, whose
status defaults to "Pending". -/
def scheduleHandler (db : DB) (b : ScheduleBody) : Resp × DB :=
  let p : Pickup := ⟨toString db.nextPickupId, b.wasteType, b.address, "Pending"⟩
  (⟨201, .pickupOne p⟩,
    { db with pickups := db.pickups ++ [p], nextPickupId := db.nextPickupId + 1 })

/-- POST /api/schedule of the earlier snapshots (src/unnamed/part_001 lines
151-166 and src/unnamed/part_000 lines 32-47): missing (falsy) wasteType or
address is refused with 400 before anything is stored. -/
def scheduleHandlerChecked (db : DB) (b : ScheduleBody) : Resp × DB :=
  if falsy b.wasteType || falsy b.address then (⟨400, .msg⟩, db)
  else scheduleHandler db b

/-- Ascending comparison on the optional address field, the embedding of the
Mongo sort specification sort(address 1) at src/backend/index.js line 229:
an absent address sorts first, present addresses alphabetically. -/
def addrLe (a b : Option String) : Bool :=
  match a, b with
  | none, _ => true
  | some _, none => false
  | some x, some y => decide (x ≤ y)

/-- The sort of GET /api/driver/route, src/backend/index.js line 229. -/
def sortByAddress (ps : List Pickup) : List Pickup :=
  ps.mergeSort (fun p q => addrLe p.address q.address)

/-- GET /api/driver/route after the role gate, src/backend/index.js lines
227-233: the pending pickups sorted by address, state unchanged. -/
def driverRouteHandler (db : DB) : Resp × DB :=
  (⟨200, .pickupsList (sortByAddress (db.pickups.filter (fun p => p.status == "Pending")))⟩,
    db)

/-- The projection of NGO.find with projection name description at
src/backend/index.js line 248: the linked user id is not selected. -/
def ngoPublic (n : Ngo) : Ngo := { n with user := 0 }

/-- GET /api/ngos after the role gate, src/backend/index.js lines 246-249. -/
def getNgosHandler (db : DB) : Resp × DB :=
  (⟨200, .ngosList (db.ngos.map ngoPublic)⟩, db)

/-- POST /api/donate/:ngoId after the role gate, src/backend/index.js lines
260-281: 404 when the NGO does not exist, otherwise store a donation. -/
def donateHandler (db : DB) (c : Claims) (ngoId : Nat) (amount : Int) :
    Resp × DB :=
  match db.ngos.find? (fun n => n.id == ngoId) with
  | none => (⟨404, .msg⟩, db)
  | some _ =>
    (⟨201, .msg⟩, { db with donations := db.donations ++ [⟨amount, c.userId, ngoId⟩] })

/-- GET /api/donations/ngo after the role gate, src/backend/index.js lines
308-318: find the NGO profile linked to the logged-in user, 404 when absent,
otherwise the donations made to that NGO. -/
def donationsNgoHandler (db : DB) (c : Claims) : Resp × DB :=
  match db.ngos.find? (fun n => n.user == c.userId) with
  | none => (⟨404, .msg⟩, db)
  | some n =>
    (⟨200, .donationsList (db.donations.filter (fun d => d.ngo == n.id))⟩, db)

/-- The prelude every protected route of src/backend/index.js repeats: run
the authentication middleware (401 and stop when it fails) and the per-route
role check (403 and stop when the role check fails), then the handler
body with the decoded claims. -/
def gated (ext : Ext) (db : DB) (auth : Option String) (ok : String → Bool)
    (body : Claims → Resp × DB) : Resp × DB :=
  match authMiddleware ext.verify auth with
  | none => (⟨401, .msg⟩, db)
  | some c => if ok c.role then body c else (⟨403, .msg⟩, db)

/-- The full route table of src/backend/index.js with its authentication
middleware and per-route role gates. -/
def handle (ext : Ext) (db : DB) : Req → Resp × DB
  | .hello => (⟨200, .msg⟩, db)
  | .register b => registerHandler ext db b
  | .registerNgo b => registerNgoHandler ext db b
  | .login e p => loginHandler ext db e p
  | .getPickups a =>
    gated ext db a (fun r => r == "admin")
      (fun _ => (⟨200, .pickupsList db.pickups⟩, db))
  | .schedule a b =>
    gated ext db a (fun r => r == "user") (fun _ => scheduleHandler db b)
  | .complete a pid =>
    gated ext db a (fun r => r == "admin" || r == "driver")
      (fun _ => completeHandler db pid)
  | .driverRoute a =>
    gated ext db a (fun r => r == "driver") (fun _ => driverRouteHandler db)
  | .getNgos a =>
    gated ext db a (fun r => r == "user") (fun _ => getNgosHandler db)
  | .donate a ngoId amount =>
    gated ext db a (fun r => r == "user") (fun c => donateHandler db c ngoId amount)
  | .donationsAdmin a =>
    gated ext db a (fun r => r == "admin")
      (fun _ => (⟨200, .donationsList db.donations⟩, db))
  | .donationsNgo a =>
    gated ext db a (fun r => r == "ngo") (fun c => donationsNgoHandler db c)

/-- The Authorization header of a request to a protected route; `none` for
the public routes (hello and the three auth routes). -/
def Req.auth? : Req → Option (Option String)
  | .hello => none
  | .register _ => none
  | .registerNgo _ => none
  | .login _ _ => none
  | .getPickups a => some a
  | .schedule a _ => some a
  | .complete a _ => some a
  | .driverRoute a => some a
  | .getNgos a => some a
  | .donate a _ _ => some a
  | .donationsAdmin a => some a
  | .donationsNgo a => some a

/-- The per-route role gate of src/backend/index.js: which roles a route
allows past its 403 check. -/
def Req.roleOk : Req → String → Bool
  | .getPickups _, r => r == "admin"
  | .schedule _ _, r => r == "user"
  | .complete _ _, r => r == "admin" || r == "driver"
  | .driverRoute _, r => r == "driver"
  | .getNgos _, r => r == "user"
  | .donate _ _ _, r => r == "user"
  | .donationsAdmin _, r => r == "admin"
  | .donationsNgo _, r => r == "ngo"
  | _, _ => true

/-- Modelled from the spec: the most advanced version of GET
/api/driver/route (not among the source files, which still sort
alphabetically) re-maps the visit order returned by the external route
optimizer onto the local records, matching externally returned stop ids back
to locally held pickups by string equality, preserving the external order
and silently dropping any unmatched stop. -/
def matchRoute (extOrder : List String) (pending : List Pickup) : List Pickup :=
  extOrder.filterMap (fun sid => pending.find? (fun p => p.id == sid))

/-- Modelled from the spec: the optimizer-backed route endpoint collects the
pending pickups and orders them by the externally returned visit order
`extOrder` via `matchRoute`. -/
def driverRouteOptimized (extOrder : List String) (db : DB) : List Pickup :=
  matchRoute extOrder (db.pickups.filter (fun p => p.status == "Pending"))

/-- The reachable-state invariant on pickup statuses: the API only ever
writes "Pending" and "Completed". -/
def pickupInv (db : DB) : Prop :=
  ∀ p ∈ db.pickups, p.status = "Pending" ∨ p.status = "Completed"

/-- Email uniqueness across accounts. -/
def emailsNodup (db : DB) : Prop := (db.users.map User.email).Nodup

/-- A concrete instantiation of the external collaborators, used to evaluate
the model on concrete requests: tokens are looked up in a fixed table,
hashing appends a marker, comparison re-hashes. -/
def ext0 : Ext where
  verify := fun t =>
    if t == "drivertok" then some ⟨1, "driver"⟩
    else if t == "usertok" then some ⟨2, "user"⟩
    else if t == "admintok" then some ⟨3, "admin"⟩
    else if t == "ngotok" then some ⟨4, "ngo"⟩
    else none
  sign := fun _ => "signed"
  hash := fun s => s ++ "#"
  compare := fun s h => (s ++ "#") == h

/-- A concrete database state used to evaluate the model: one driver account
and three pickups, two Pending and one Completed. -/
def db0 : DB where
  users := [⟨1, "d@x", "pw#", "driver"⟩]
  pickups :=
    [⟨"a", some "Plastic", some "B street", "Pending"⟩,
     ⟨"b", some "Glass", some "A street", "Pending"⟩,
     ⟨"c", some "Metal", some "C street", "Completed"⟩]
  ngos := []
  donations := []
  nextUserId := 5
  nextPickupId := 10
  nextNgoId := 3

/-! ## Helper lemmas -/

theorem matchRoute_subset {o : List String} {pend : List Pickup} {p : Pickup}
    (hp : p ∈ matchRoute o pend) : p ∈ pend := by
  unfold matchRoute at hp
  rcases List.mem_filterMap.mp hp with ⟨sid, _, hfind⟩
  exact List.mem_of_find?_eq_some hfind

theorem matchRoute_map_id (o : List String) (pend : List Pickup) :
    (matchRoute o pend).map Pickup.id =
      o.filter (fun sid => pend.any (fun p => p.id == sid)) := by
  induction o with
  | nil => rfl
  | cons sid rest ih =>
    unfold matchRoute at ih ⊢
    rw [List.filterMap_cons, List.filter_cons]
    cases hfind : pend.find? (fun p => p.id == sid) with
    | none =>
      have hany : pend.any (fun p => p.id == sid) = false := by
        rw [List.any_eq_false]
        intro p hp
        simpa using List.find?_eq_none.mp hfind p hp
      simp only [hany, cond_false]
      exact ih
    | some p =>
      have hid := List.find?_some hfind
      have hany : pend.any (fun q => q.id == sid) = true :=
        List.any_eq_true.mpr ⟨p, List.mem_of_find?_eq_some hfind, hid⟩
      simp only [hany, cond_true, List.map_cons, ih]
      simpa using hid

theorem addrLe_trans {a b c : Option String} (h₁ : addrLe a b) (h₂ : addrLe b c) :
    addrLe a c := by
  cases a <;> cases b <;> cases c <;> simp_all [addrLe]
  exact le_trans h₁ h₂

theorem addrLe_total (a b : Option String) : addrLe a b || addrLe b a := by
  cases a <;> cases b <;> simp [addrLe]
  exact le_total _ _

theorem sortByAddress_perm (ps : List Pickup) : (sortByAddress ps).Perm ps :=
  List.mergeSort_perm ps _

theorem sortByAddress_sorted (ps : List Pickup) :
    (sortByAddress ps).Pairwise (fun p q => addrLe p.address q.address = true) := by
  have h := @List.sorted_mergeSort Pickup
    (fun p q : Pickup => addrLe p.address q.address)
    (fun a b c h₁ h₂ => addrLe_trans h₁ h₂)
    (fun a b => addrLe_total a.address b.address) ps
  simpa using h

theorem gated_none {ext : Ext} {db : DB} {auth : Option String}
    {ok : String → Bool} {body : Claims → Resp × DB}
    (h : authMiddleware ext.verify auth = none) :
    gated ext db auth ok body = (⟨401, .msg⟩, db) := by
  unfold gated
  rw [h]

theorem gated_403 {ext : Ext} {db : DB} {auth : Option String} {c : Claims}
    {ok : String → Bool} {body : Claims → Resp × DB}
    (h : authMiddleware ext.verify auth = some c) (hok : ok c.role = false) :
    gated ext db auth ok body = (⟨403, .msg⟩, db) := by
  unfold gated
  rw [h]
  simp [hok]

theorem gated_ok {ext : Ext} {db : DB} {auth : Option String} {c : Claims}
    {ok : String → Bool} {body : Claims → Resp × DB}
    (h : authMiddleware ext.verify auth = some c) (hok : ok c.role = true) :
    gated ext db auth ok body = body c := by
  unfold gated
  rw [h]
  simp [hok]

/-- The one-step property C3 asserts of every API operation: the status
invariant is preserved, every pickup of the new state is an old pickup
unchanged, a pickup with status Pending, or a formerly Pending pickup set to
Completed, and every Completed pickup survives unchanged (in particular none
is moved back to Pending). -/
def statusStep (db db' : DB) : Prop :=
  pickupInv db' ∧
  (∀ p' ∈ db'.pickups,
      p' ∈ db.pickups ∨ p'.status = "Pending" ∨
      ∃ p ∈ db.pickups, p.status = "Pending" ∧ p' = completePickup p) ∧
  (∀ p ∈ db.pickups, p.status = "Completed" → p ∈ db'.pickups)

theorem completePickup_of_completed {p : Pickup} (h : p.status = "Completed") :
    completePickup p = p := by
  cases p
  simp_all [completePickup]

theorem statusStep_unchanged {db db' : DB} (hinv : pickupInv db)
    (h : db'.pickups = db.pickups) : statusStep db db' := by
  refine ⟨fun p hp => hinv p (h ▸ hp), fun p' hp' => Or.inl (h ▸ hp'), fun p hp _ => h ▸ hp⟩

theorem statusStep_append_pending {db db' : DB} (hinv : pickupInv db) {p : Pickup}
    (h : db'.pickups = db.pickups ++ [p]) (hst : p.status = "Pending") :
    statusStep db db' := by
  refine ⟨?_, ?_, ?_⟩
  · intro q hq
    rw [h] at hq
    rcases List.mem_append.mp hq with hq | hq
    · exact hinv q hq
    · simp only [List.mem_singleton] at hq
      exact Or.inl (hq ▸ hst)
  · intro q hq
    rw [h] at hq
    rcases List.mem_append.mp hq with hq | hq
    · exact Or.inl hq
    · simp only [List.mem_singleton] at hq
      exact Or.inr (Or.inl (hq ▸ hst))
  · intro q hq _
    rw [h]
    exact List.mem_append.mpr (Or.inl hq)

theorem statusStep_complete {db db' : DB} (hinv : pickupInv db) {pid : String}
    (h : db'.pickups =
      db.pickups.map (fun q => if q.id == pid then completePickup q else q)) :
    statusStep db db' := by
  refine ⟨?_, ?_, ?_⟩
  · intro q hq
    rw [h] at hq
    rcases List.mem_map.mp hq with ⟨r, hr, hrq⟩
    by_cases hid : (r.id == pid) = true
    · rw [if_pos hid] at hrq
      exact Or.inr (hrq ▸ rfl)
    · rw [if_neg hid] at hrq
      exact hrq ▸ hinv r hr
  · intro q hq
    rw [h] at hq
    rcases List.mem_map.mp hq with ⟨r, hr, hrq⟩
    by_cases hid : (r.id == pid) = true
    · rw [if_pos hid] at hrq
      rcases hinv r hr with hst | hst
      · exact Or.inr (Or.inr ⟨r, hr, hst, hrq.symm⟩)
      · exact Or.inl (by rw [← hrq, completePickup_of_completed hst]; exact hr)
    · rw [if_neg hid] at hrq
      exact Or.inl (hrq ▸ hr)
  · intro q hq hst
    rw [h]
    have : (if q.id == pid then completePickup q else q) = q := by
      by_cases hid : (q.id == pid) = true
      · rw [if_pos hid, completePickup_of_completed hst]
      · rw [if_neg hid]
    exact this ▸ List.mem_map_of_mem _ hq

theorem statusStep_gated {ext : Ext} {db : DB} {auth : Option String}
    {ok : String → Bool} {body : Claims → Resp × DB} (hinv : pickupInv db)
    (hbody : ∀ c, statusStep db ((body c).2)) :
    statusStep db ((gated ext db auth ok body).2) := by
  unfold gated
  cases authMiddleware ext.verify auth with
  | none => exact statusStep_unchanged hinv rfl
  | some c =>
    by_cases hok : ok c.role = true
    · simpa [hok] using hbody c
    · simp only [Bool.not_eq_true] at hok
      simpa [hok] using statusStep_unchanged hinv rfl

theorem registerHandler_pickups (ext : Ext) (db : DB) (b : RegisterBody) :
    ((registerHandler ext db b).2).pickups = db.pickups := by
  unfold registerHandler
  split
  · rfl
  · split <;> rfl

theorem registerNgoHandler_pickups (ext : Ext) (db : DB) (b : RegisterNgoBody) :
    ((registerNgoHandler ext db b).2).pickups = db.pickups := by
  unfold registerNgoHandler
  split
  · rfl
  · split <;> rfl

theorem loginHandler_pickups (ext : Ext) (db : DB) (e p : Option String) :
    ((loginHandler ext db e p).2).pickups = db.pickups := by
  unfold loginHandler
  split
  · rfl
  · split
    · rfl
    · split <;> rfl

theorem donateHandler_pickups (db : DB) (c : Claims) (ngoId : Nat) (amount : Int) :
    ((donateHandler db c ngoId amount).2).pickups = db.pickups := by
  unfold donateHandler
  split <;> rfl

theorem donationsNgoHandler_pickups (db : DB) (c : Claims) :
    ((donationsNgoHandler db c).2).pickups = db.pickups := by
  unfold donationsNgoHandler
  split <;> rfl

theorem statusStep_completeHandler {db : DB} (hinv : pickupInv db) (pid : String) :
    statusStep db ((completeHandler db pid).2) := by
  unfold completeHandler
  split
  · exact statusStep_unchanged hinv rfl
  · exact statusStep_complete hinv rfl

theorem loginHandler_users (ext : Ext) (db : DB) (e p : Option String) :
    ((loginHandler ext db e p).2).users = db.users := by
  unfold loginHandler
  split
  · rfl
  · split
    · rfl
    · split <;> rfl

theorem scheduleHandler_users (db : DB) (b : ScheduleBody) :
    ((scheduleHandler db b).2).users = db.users := rfl

theorem completeHandler_users (db : DB) (pid : String) :
    ((completeHandler db pid).2).users = db.users := by
  unfold completeHandler
  split <;> rfl

theorem donateHandler_users (db : DB) (c : Claims) (ngoId : Nat) (amount : Int) :
    ((donateHandler db c ngoId amount).2).users = db.users := by
  unfold donateHandler
  split <;> rfl

theorem donationsNgoHandler_users (db : DB) (c : Claims) :
    ((donationsNgoHandler db c).2).users = db.users := by
  unfold donationsNgoHandler
  split <;> rfl

theorem gated_users {ext : Ext} {db : DB} {auth : Option String}
    {ok : String → Bool} {body : Claims → Resp × DB}
    (hbody : ∀ c, ((body c).2).users = db.users) :
    ((gated ext db auth ok body).2).users = db.users := by
  unfold gated
  cases authMiddleware ext.verify auth with
  | none => rfl
  | some c =>
    by_cases hok : ok c.role = true
    · simpa [hok] using hbody c
    · simp only [Bool.not_eq_true] at hok
      simp [hok]

theorem emailsNodup_of_users_eq {db db' : DB} (h : db'.users = db.users)
    (hn : emailsNodup db) : emailsNodup db' := by
  unfold emailsNodup at hn ⊢
  rw [h]
  exact hn

theorem emailsNodup_append {db : DB} {u : User} (h : emailsNodup db)
    (hnew : ∀ v ∈ db.users, v.email ≠ u.email) :
    ((db.users ++ [u]).map User.email).Nodup := by
  rw [List.map_append, List.nodup_append]
  refine ⟨h, by simp, ?_⟩
  intro e he he'
  rcases List.mem_map.mp he with ⟨v, hv, rfl⟩
  simp only [List.map_cons, List.map_nil, List.mem_singleton] at he'
  exact hnew v hv he'

theorem registerHandler_emailsNodup (ext : Ext) (db : DB) (b : RegisterBody)
    (h : emailsNodup db) : emailsNodup ((registerHandler ext db b).2) := by
  unfold registerHandler
  split
  · exact h
  · cases hfind : db.users.find? (fun u => u.email == b.email.getD "") with
    | some u => exact h
    | none =>
      show ((db.users ++ [_]).map User.email).Nodup
      refine emailsNodup_append h ?_
      intro v hv
      simpa using List.find?_eq_none.mp hfind v hv

theorem registerNgoHandler_emailsNodup (ext : Ext) (db : DB) (b : RegisterNgoBody)
    (h : emailsNodup db) : emailsNodup ((registerNgoHandler ext db b).2) := by
  unfold registerNgoHandler
  split
  · exact h
  · cases hfind : db.users.find? (fun u => u.email == b.email.getD "") with
    | some u => exact h
    | none =>
      show ((db.users ++ [_]).map User.email).Nodup
      refine emailsNodup_append h ?_
      intro v hv
      simpa using List.find?_eq_none.mp hfind v hv

theorem DB.ext1 {db1 db2 : DB} (hu : db1.users = db2.users)
    (hp : db1.pickups = db2.pickups) (hn : db1.ngos = db2.ngos)
    (hd : db1.donations = db2.donations) (h1 : db1.nextUserId = db2.nextUserId)
    (h2 : db1.nextPickupId = db2.nextPickupId)
    (h3 : db1.nextNgoId = db2.nextNgoId) : db1 = db2 := by
  cases db1
  cases db2
  simp_all

/-! ## Claim theorems -/

/-- C1: in the most advanced version, GET /api/driver/route computes the
visiting order via the external route optimizer: every returned pickup is one
of the locally held pending pickups, and the returned id sequence is exactly
the externally returned visit order restricted (order preserved) to the stop
ids that match some pending pickup by string equality, unmatched stops being
silently dropped. -/
theorem driver_route_optimizer_matches_pending (extOrder : List String) (db : DB) :
    (∀ p ∈ driverRouteOptimized extOrder db,
        p ∈ db.pickups.filter (fun q => q.status == "Pending")) ∧
    (driverRouteOptimized extOrder db).map Pickup.id =
      extOrder.filter
        (fun sid =>
          (db.pickups.filter (fun q => q.status == "Pending")).any
            (fun p => p.id == sid)) :=
  ⟨fun _ hp => matchRoute_subset hp, matchRoute_map_id _ _⟩

/-- C2: a successful GET /api/driver/route (valid token, role driver) leaves
the state unchanged and returns exactly the pickups whose status is Pending
(a permutation of the Pending filter, hence no others and no Completed
pickup), ordered ascending by address via addrLe (alphabetical String order
on present addresses). -/
theorem driver_route_pending_sorted (ext : Ext) (db : DB) (a : Option String)
    (c : Claims) (hauth : authMiddleware ext.verify a = some c)
    (hrole : c.role = "driver") :
    ∃ L, handle ext db (.driverRoute a) = (⟨200, .pickupsList L⟩, db) ∧
      L.Perm (db.pickups.filter (fun p => p.status == "Pending")) ∧
      L.Pairwise (fun p q => addrLe p.address q.address = true) ∧
      (∀ p ∈ L, p.status = "Pending") ∧
      (∀ p ∈ db.pickups, p.status = "Pending" → p ∈ L) ∧
      (∀ p ∈ L, p.status ≠ "Completed") := by
  refine ⟨sortByAddress (db.pickups.filter (fun p => p.status == "Pending")),
    ?_, sortByAddress_perm _, sortByAddress_sorted _, ?_, ?_, ?_⟩
  · simp [handle, gated, hauth, hrole, driverRouteHandler]
  · intro p hp
    have := (sortByAddress_perm _).mem_iff.mp hp
    simpa using (List.mem_filter.mp this).2
  · intro p hp hpend
    exact (sortByAddress_perm _).mem_iff.mpr
      (List.mem_filter.mpr ⟨hp, by simpa using hpend⟩)
  · intro p hp
    have := (sortByAddress_perm _).mem_iff.mp hp
    have hpend : p.status = "Pending" := by
      simpa using (List.mem_filter.mp this).2
    simp [hpend]

/-- C3: starting from a state whose pickup statuses are Pending or Completed
(the only values the API ever writes), every operation of the API preserves
that invariant, leaves each pickup unchanged, creates it with status Pending,
or moves it from Pending to Completed, and never removes or reverts a
Completed pickup. -/
theorem pickup_status_one_way (ext : Ext) (db : DB) (req : Req)
    (hinv : pickupInv db) : statusStep db (handle ext db req).2 := by
  cases req with
  | hello => exact statusStep_unchanged hinv rfl
  | register b => exact statusStep_unchanged hinv (registerHandler_pickups ext db b)
  | registerNgo b => exact statusStep_unchanged hinv (registerNgoHandler_pickups ext db b)
  | login e p => exact statusStep_unchanged hinv (loginHandler_pickups ext db e p)
  | getPickups a => exact statusStep_gated hinv fun _ => statusStep_unchanged hinv rfl
  | schedule a b =>
    exact statusStep_gated hinv fun _ => statusStep_append_pending hinv rfl rfl
  | complete a pid => exact statusStep_gated hinv fun _ => statusStep_completeHandler hinv pid
  | driverRoute a => exact statusStep_gated hinv fun _ => statusStep_unchanged hinv rfl
  | getNgos a => exact statusStep_gated hinv fun _ => statusStep_unchanged hinv rfl
  | donate a ngoId amount =>
    exact statusStep_gated hinv fun c =>
      statusStep_unchanged hinv (donateHandler_pickups db c ngoId amount)
  | donationsAdmin a => exact statusStep_gated hinv fun _ => statusStep_unchanged hinv rfl
  | donationsNgo a =>
    exact statusStep_gated hinv fun c =>
      statusStep_unchanged hinv (donationsNgoHandler_pickups db c)

/-- C4: under a valid token with role admin or driver, PATCH
/api/pickups/:id/complete answers 200 when a pickup with the id exists,
returning that pickup with status set to Completed and updating exactly the
matching pickups in the state, and answers 404 with the state unchanged when
no pickup has the id. -/
theorem complete_200_or_404 (ext : Ext) (db : DB) (a : Option String)
    (c : Claims) (pid : String) (hauth : authMiddleware ext.verify a = some c)
    (hrole : c.role = "admin" ∨ c.role = "driver") :
    ((∃ p ∈ db.pickups, p.id = pid) →
      ∃ p, db.pickups.find? (fun q => q.id == pid) = some p ∧ p ∈ db.pickups ∧
        p.id = pid ∧
        handle ext db (.complete a pid) =
          (⟨200, .pickupOne (completePickup p)⟩,
            { db with
                pickups :=
                  db.pickups.map
                    (fun q => if q.id == pid then completePickup q else q) }) ∧
        (completePickup p).status = "Completed" ∧
        completePickup p ∈ (handle ext db (.complete a pid)).2.pickups) ∧
    ((∀ p ∈ db.pickups, p.id ≠ pid) →
      handle ext db (.complete a pid) = (⟨404, .msg⟩, db)) := by
  have hok : (c.role == "admin" || c.role == "driver") = true := by
    rcases hrole with h | h <;> simp [h]
  have hgate : handle ext db (.complete a pid) = completeHandler db pid := by
    show gated ext db a (fun r => r == "admin" || r == "driver")
      (fun _ => completeHandler db pid) = completeHandler db pid
    exact gated_ok hauth hok
  constructor
  · rintro ⟨p₀, hp₀, hid₀⟩
    have hsome : (db.pickups.find? (fun q => q.id == pid)).isSome := by
      rw [List.find?_isSome]
      exact ⟨p₀, hp₀, by simpa using hid₀⟩
    rcases Option.isSome_iff_exists.mp hsome with ⟨p, hfind⟩
    have hmem : p ∈ db.pickups := List.mem_of_find?_eq_some hfind
    have hid : p.id = pid := by simpa using List.find?_some hfind
    refine ⟨p, hfind, hmem, hid, ?_, rfl, ?_⟩
    · rw [hgate]
      unfold completeHandler
      rw [hfind]
    · rw [hgate]
      unfold completeHandler
      rw [hfind]
      have : (if p.id == pid then completePickup p else p) = completePickup p := by
        simp [hid]
      exact this ▸ List.mem_map_of_mem _ hmem
  · intro hnone
    have hfind : db.pickups.find? (fun q => q.id == pid) = none := by
      rw [List.find?_eq_none]
      intro p hp
      simpa using hnone p hp
    rw [hgate]
    unfold completeHandler
    rw [hfind]

unseal String.splitOnAux in
/-- C5 (code bug): in src/backend/index.js, a POST /api/schedule request by
an authorized user whose body misses both wasteType and address is NOT
answered with 400: a pickup with absent fields is created and 201 returned;
the earlier snapshots (src/unnamed/part_000 and part_001) refuse the same
body with 400 and create nothing, which is what the spec states. -/
theorem schedule_missing_fields_still_creates :
    handle ext0 db0 (.schedule (some "Bearer usertok") ⟨none, none⟩) =
      (⟨201, .pickupOne ⟨"10", none, none, "Pending"⟩⟩,
        { db0 with
            pickups := db0.pickups ++ [⟨"10", none, none, "Pending"⟩],
            nextPickupId := 11 }) ∧
    scheduleHandlerChecked db0 ⟨none, none⟩ = (⟨400, .msg⟩, db0) := by
  exact ⟨by decide, by decide⟩

/-- C6: the authentication gate is uniform across the protected routes:
whenever the middleware yields no claims (missing header, no token after the
split, or failed verification) the response is 401 with the state unchanged
and the handler is never reached, and whenever it yields claims whose role
the route does not allow the response is 403 with the state unchanged. -/
theorem auth_gate_uniform (ext : Ext) (db : DB) (req : Req) (a : Option String)
    (ha : req.auth? = some a) :
    (authMiddleware ext.verify a = none →
      handle ext db req = (⟨401, .msg⟩, db)) ∧
    (∀ c, authMiddleware ext.verify a = some c → req.roleOk c.role = false →
      handle ext db req = (⟨403, .msg⟩, db)) := by
  cases req with
  | hello => simp [Req.auth?] at ha
  | register b => simp [Req.auth?] at ha
  | registerNgo b => simp [Req.auth?] at ha
  | login e p => simp [Req.auth?] at ha
  | getPickups b =>
    obtain rfl : b = a := by simpa [Req.auth?] using ha
    simp only [handle]
    exact ⟨fun h => gated_none h, fun c hc hok => gated_403 hc hok⟩
  | schedule b body =>
    obtain rfl : b = a := by simpa [Req.auth?] using ha
    simp only [handle]
    exact ⟨fun h => gated_none h, fun c hc hok => gated_403 hc hok⟩
  | complete b pid =>
    obtain rfl : b = a := by simpa [Req.auth?] using ha
    simp only [handle]
    exact ⟨fun h => gated_none h, fun c hc hok => gated_403 hc hok⟩
  | driverRoute b =>
    obtain rfl : b = a := by simpa [Req.auth?] using ha
    simp only [handle]
    exact ⟨fun h => gated_none h, fun c hc hok => gated_403 hc hok⟩
  | getNgos b =>
    obtain rfl : b = a := by simpa [Req.auth?] using ha
    simp only [handle]
    exact ⟨fun h => gated_none h, fun c hc hok => gated_403 hc hok⟩
  | donate b ngoId amount =>
    obtain rfl : b = a := by simpa [Req.auth?] using ha
    simp only [handle]
    exact ⟨fun h => gated_none h, fun c hc hok => gated_403 hc hok⟩
  | donationsAdmin b =>
    obtain rfl : b = a := by simpa [Req.auth?] using ha
    simp only [handle]
    exact ⟨fun h => gated_none h, fun c hc hok => gated_403 hc hok⟩
  | donationsNgo b =>
    obtain rfl : b = a := by simpa [Req.auth?] using ha
    simp only [handle]
    exact ⟨fun h => gated_none h, fun c hc hok => gated_403 hc hok⟩

/-- C7 counterexample: a register request whose email is taken by nobody but
whose password is missing is answered 400 with no account created, refuting
the claim that every request with an untaken email returns 201 and creates
one user. -/
theorem register_untaken_email_can_fail :
    (∀ u ∈ db0.users, u.email ≠ "new@x") ∧
    handle ext0 db0 (.register ⟨some "new@x", none, none⟩) = (⟨400, .msg⟩, db0) :=
  ⟨by decide, by decide⟩

/-- C7 (amended): register and register-ngo refuse an already-taken email
with 400 and an unchanged state; when the required fields are present and the
email is untaken they answer 201 having created exactly one new user; and
every operation of the API preserves email uniqueness. -/
theorem email_uniqueness_invariant (ext : Ext) (db : DB) :
    (∀ b : RegisterBody, (∃ u ∈ db.users, u.email = b.email.getD "") →
      handle ext db (.register b) = (⟨400, .msg⟩, db)) ∧
    (∀ b : RegisterNgoBody, (∃ u ∈ db.users, u.email = b.email.getD "") →
      handle ext db (.registerNgo b) = (⟨400, .msg⟩, db)) ∧
    (∀ b : RegisterBody, falsy b.email = false → falsy b.password = false →
      (∀ u ∈ db.users, u.email ≠ b.email.getD "") →
      handle ext db (.register b) =
        (⟨201, .msg⟩,
          { db with
              users := db.users ++
                [⟨db.nextUserId, b.email.getD "",
                  ext.hash (b.password.getD ""), "user"⟩],
              nextUserId := db.nextUserId + 1 })) ∧
    (∀ b : RegisterNgoBody, falsy b.email = false → falsy b.password = false →
      falsy b.name = false → (∀ u ∈ db.users, u.email ≠ b.email.getD "") →
      (handle ext db (.registerNgo b)).1.status = 201 ∧
      (handle ext db (.registerNgo b)).2.users = db.users ++
        [⟨db.nextUserId, b.email.getD "", ext.hash (b.password.getD ""), "ngo"⟩]) ∧
    (∀ req : Req, emailsNodup db → emailsNodup (handle ext db req).2) := by
  refine ⟨?_, ?_, ?_, ?_, ?_⟩
  · rintro b ⟨u, hu, hue⟩
    show registerHandler ext db b = (⟨400, .msg⟩, db)
    unfold registerHandler
    split
    · rfl
    · cases hfind : db.users.find? (fun v => v.email == b.email.getD "") with
      | some v => rfl
      | none => exact absurd (by simpa using hue) (List.find?_eq_none.mp hfind u hu)
  · rintro b ⟨u, hu, hue⟩
    show registerNgoHandler ext db b = (⟨400, .msg⟩, db)
    unfold registerNgoHandler
    split
    · rfl
    · cases hfind : db.users.find? (fun v => v.email == b.email.getD "") with
      | some v => rfl
      | none => exact absurd (by simpa using hue) (List.find?_eq_none.mp hfind u hu)
  · intro b he hp hfree
    have hfind : db.users.find? (fun v => v.email == b.email.getD "") = none :=
      List.find?_eq_none.mpr (fun v hv => by simpa using hfree v hv)
    show registerHandler ext db b = _
    simp [registerHandler, he, hp, hfind]
  · intro b he hp hname hfree
    have hfind : db.users.find? (fun v => v.email == b.email.getD "") = none :=
      List.find?_eq_none.mpr (fun v hv => by simpa using hfree v hv)
    have hh : handle ext db (.registerNgo b) = registerNgoHandler ext db b := rfl
    rw [hh]
    unfold registerNgoHandler
    rw [if_neg (by simp [he, hp, hname]), hfind]
    exact ⟨rfl, rfl⟩
  · intro req hn
    cases req with
    | hello => exact hn
    | register b => exact registerHandler_emailsNodup ext db b hn
    | registerNgo b => exact registerNgoHandler_emailsNodup ext db b hn
    | login e p => exact emailsNodup_of_users_eq (loginHandler_users ext db e p) hn
    | getPickups a => exact emailsNodup_of_users_eq (gated_users fun _ => rfl) hn
    | schedule a b =>
      exact emailsNodup_of_users_eq (gated_users fun _ => scheduleHandler_users db b) hn
    | complete a pid =>
      exact emailsNodup_of_users_eq (gated_users fun _ => completeHandler_users db pid) hn
    | driverRoute a => exact emailsNodup_of_users_eq (gated_users fun _ => rfl) hn
    | getNgos a => exact emailsNodup_of_users_eq (gated_users fun _ => rfl) hn
    | donate a ngoId amount =>
      exact emailsNodup_of_users_eq
        (gated_users fun c => donateHandler_users db c ngoId amount) hn
    | donationsAdmin a => exact emailsNodup_of_users_eq (gated_users fun _ => rfl) hn
    | donationsNgo a =>
      exact emailsNodup_of_users_eq (gated_users fun c => donationsNgoHandler_users db c) hn

/-- C8: a successful POST /api/auth/register (status 201) always appends
exactly one account and its role is the fixed string user, whatever role
field the request body carried. -/
theorem register_creates_role_user (ext : Ext) (db : DB) (b : RegisterBody)
    (h201 : (handle ext db (.register b)).1.status = 201) :
    ∃ u : User, (handle ext db (.register b)).2.users = db.users ++ [u] ∧
      u.role = "user" := by
  have hh : handle ext db (.register b) = registerHandler ext db b := rfl
  rw [hh] at h201 ⊢
  unfold registerHandler at h201 ⊢
  by_cases hval : (falsy b.email || falsy b.password) = true
  · rw [if_pos hval] at h201
    simp at h201
  · rw [if_neg hval] at h201 ⊢
    cases hfind : db.users.find? (fun v => v.email == b.email.getD "") with
    | some v =>
      rw [hfind] at h201
      simp at h201
    | none => exact ⟨_, rfl, rfl⟩

/-- C9: completing a pickup is idempotent: with an authorized token and an
existing id, the first PATCH answers 200, a second PATCH answers 200 again
and leaves the state exactly as after the first. -/
theorem complete_idempotent (ext : Ext) (db : DB) (a : Option String)
    (c : Claims) (pid : String) (hauth : authMiddleware ext.verify a = some c)
    (hrole : c.role = "admin" ∨ c.role = "driver")
    (hex : ∃ p ∈ db.pickups, p.id = pid) :
    (handle ext db (.complete a pid)).1.status = 200 ∧
    (handle ext (handle ext db (.complete a pid)).2 (.complete a pid)).1.status = 200 ∧
    (handle ext (handle ext db (.complete a pid)).2 (.complete a pid)).2 =
      (handle ext db (.complete a pid)).2 := by
  have hok : (c.role == "admin" || c.role == "driver") = true := by
    rcases hrole with h | h <;> simp [h]
  have hgate : ∀ d : DB, handle ext d (.complete a pid) = completeHandler d pid := by
    intro d
    show gated ext d a (fun r => r == "admin" || r == "driver")
      (fun _ => completeHandler d pid) = completeHandler d pid
    exact gated_ok hauth hok
  have hfid : ∀ q : Pickup, (if q.id == pid then completePickup q else q).id = q.id := by
    intro q
    by_cases h : (q.id == pid) = true
    · simp [h, completePickup]
    · simp [h]
  rcases hex with ⟨p₀, hp₀, hid₀⟩
  have hsome1 : (db.pickups.find? (fun q => q.id == pid)).isSome :=
    List.find?_isSome.mpr ⟨p₀, hp₀, by simpa using hid₀⟩
  rcases Option.isSome_iff_exists.mp hsome1 with ⟨p, hfind1⟩
  have h1 : handle ext db (.complete a pid) =
      (⟨200, .pickupOne (completePickup p)⟩,
        { db with
            pickups :=
              db.pickups.map (fun q => if q.id == pid then completePickup q else q) }) := by
    rw [hgate]
    unfold completeHandler
    rw [hfind1]
  have hmem2 :
      ((db.pickups.map (fun q => if q.id == pid then completePickup q else q)).find?
        (fun q => q.id == pid)).isSome := by
    rw [List.find?_isSome]
    refine ⟨if p₀.id == pid then completePickup p₀ else p₀,
      List.mem_map_of_mem _ hp₀, ?_⟩
    rw [hfid p₀]
    simpa using hid₀
  rcases Option.isSome_iff_exists.mp hmem2 with ⟨p₂, hfind2⟩
  have hmm :
      (db.pickups.map (fun q => if q.id == pid then completePickup q else q)).map
          (fun q => if q.id == pid then completePickup q else q) =
        db.pickups.map (fun q => if q.id == pid then completePickup q else q) := by
    rw [List.map_map]
    refine List.map_congr_left ?_
    intro q hq
    by_cases h : (q.id == pid) = true
    · simp [Function.comp, h, completePickup]
    · simp [Function.comp, h]
  have h2 : handle ext
      ({ db with
          pickups :=
            db.pickups.map (fun q => if q.id == pid then completePickup q else q) })
      (.complete a pid) =
      (⟨200, .pickupOne (completePickup p₂)⟩,
        { db with
            pickups :=
              db.pickups.map (fun q => if q.id == pid then completePickup q else q) }) := by
    rw [hgate]
    unfold completeHandler
    rw [hfind2]
    rw [hmm]
  refine ⟨by rw [h1], ?_, ?_⟩
  · rw [h1]
    show (handle ext _ (.complete a pid)).1.status = 200
    rw [h2]
  · rw [h1]
    show (handle ext _ (.complete a pid)).2 = _
    rw [h2]

/-- C10: the response of GET /api/ngos depends only on the id, name and
description of the stored NGO records: two states whose NGO lists agree on
those fields (in particular states differing only in the linked user ids)
receive the same response, so the response never discloses which login
account an NGO is linked to. -/
theorem ngos_response_independent_of_user_links (ext : Ext) (a : Option String)
    (db1 db2 : DB) (hlen : db1.ngos.length = db2.ngos.length)
    (hpub : ∀ i (h1 : i < db1.ngos.length) (h2 : i < db2.ngos.length),
      (db1.ngos.get ⟨i, h1⟩).id = (db2.ngos.get ⟨i, h2⟩).id ∧
      (db1.ngos.get ⟨i, h1⟩).name = (db2.ngos.get ⟨i, h2⟩).name ∧
      (db1.ngos.get ⟨i, h1⟩).description = (db2.ngos.get ⟨i, h2⟩).description) :
    (handle ext db1 (.getNgos a)).1 = (handle ext db2 (.getNgos a)).1 := by
  have hmap : db1.ngos.map ngoPublic = db2.ngos.map ngoPublic := by
    apply List.ext_getElem (by simpa using hlen)
    intro i h1 h2
    simp only [List.getElem_map]
    rcases hpub i (by simpa using h1) (by simpa using h2) with ⟨hid, hn, hd⟩
    simp only [List.get_eq_getElem] at hid hn hd
    show ngoPublic _ = ngoPublic _
    unfold ngoPublic
    simp [hid, hn, hd]
  show (gated ext db1 a (fun r => r == "user") (fun _ => getNgosHandler db1)).1 =
    (gated ext db2 a (fun r => r == "user") (fun _ => getNgosHandler db2)).1
  unfold gated
  cases authMiddleware ext.verify a with
  | none => rfl
  | some c =>
    by_cases h : (c.role == "user") = true
    · simp only [h, if_true]
      unfold getNgosHandler
      rw [hmap]
    · simp [h]

/-! ## Witnesses: the claim theorems evaluated at concrete inputs -/

unseal String.splitOnAux in
/-- Witness for C2: a concrete driver request against db0. -/
theorem driver_route_pending_sorted_witness :
    authMiddleware ext0.verify (some "Bearer drivertok") = some ⟨1, "driver"⟩ ∧
    (⟨1, "driver"⟩ : Claims).role = "driver" ∧
    (∃ L, handle ext0 db0 (.driverRoute (some "Bearer drivertok")) =
        (⟨200, .pickupsList L⟩, db0) ∧
      L.Perm (db0.pickups.filter (fun p => p.status == "Pending")) ∧
      L.Pairwise (fun p q => addrLe p.address q.address = true) ∧
      (∀ p ∈ L, p.status = "Pending") ∧
      (∀ p ∈ db0.pickups, p.status = "Pending" → p ∈ L) ∧
      (∀ p ∈ L, p.status ≠ "Completed")) :=
  ⟨by decide, rfl,
    driver_route_pending_sorted ext0 db0 (some "Bearer drivertok") ⟨1, "driver"⟩
      (by decide) rfl⟩

unseal String.splitOnAux in
/-- Witness for C3: an admin completes pickup a in db0. -/
theorem pickup_status_one_way_witness :
    pickupInv db0 ∧
    statusStep db0 (handle ext0 db0 (.complete (some "Bearer admintok") "a")).2 :=
  ⟨by unfold pickupInv; decide,
    pickup_status_one_way ext0 db0 (.complete (some "Bearer admintok") "a")
      (by unfold pickupInv; decide)⟩

unseal String.splitOnAux in
/-- Witness for C4: a driver completes pickup a in db0. -/
theorem complete_200_or_404_witness :
    authMiddleware ext0.verify (some "Bearer drivertok") = some ⟨1, "driver"⟩ ∧
    ((⟨1, "driver"⟩ : Claims).role = "admin" ∨ (⟨1, "driver"⟩ : Claims).role = "driver") ∧
    (((∃ p ∈ db0.pickups, p.id = "a") →
      ∃ p, db0.pickups.find? (fun q => q.id == "a") = some p ∧ p ∈ db0.pickups ∧
        p.id = "a" ∧
        handle ext0 db0 (.complete (some "Bearer drivertok") "a") =
          (⟨200, .pickupOne (completePickup p)⟩,
            { db0 with
                pickups :=
                  db0.pickups.map
                    (fun q => if q.id == "a" then completePickup q else q) }) ∧
        (completePickup p).status = "Completed" ∧
        completePickup p ∈
          (handle ext0 db0 (.complete (some "Bearer drivertok") "a")).2.pickups) ∧
    ((∀ p ∈ db0.pickups, p.id ≠ "a") →
      handle ext0 db0 (.complete (some "Bearer drivertok") "a") = (⟨404, .msg⟩, db0))) :=
  ⟨by decide, Or.inr rfl,
    complete_200_or_404 ext0 db0 (some "Bearer drivertok") ⟨1, "driver"⟩ "a"
      (by decide) (Or.inr rfl)⟩

/-- Witness for C6: a pickups-list request with no Authorization header. -/
theorem auth_gate_uniform_witness :
    (Req.getPickups none).auth? = some none ∧
    ((authMiddleware ext0.verify none = none →
      handle ext0 db0 (.getPickups none) = (⟨401, .msg⟩, db0)) ∧
    (∀ c, authMiddleware ext0.verify none = some c →
      (Req.getPickups none).roleOk c.role = false →
      handle ext0 db0 (.getPickups none) = (⟨403, .msg⟩, db0))) :=
  ⟨rfl, auth_gate_uniform ext0 db0 (.getPickups none) none rfl⟩

/-- Witness for C7 (amended): registering the already-taken email of db0 is
refused with 400 and an unchanged state. -/
theorem email_uniqueness_invariant_witness :
    (∃ u ∈ db0.users, u.email = (some "d@x").getD "") ∧
    handle ext0 db0 (.register ⟨some "d@x", some "pw", none⟩) = (⟨400, .msg⟩, db0) :=
  ⟨by decide,
    (email_uniqueness_invariant ext0 db0).1 ⟨some "d@x", some "pw", none⟩ (by decide)⟩

/-- Witness for C8: a register request that smuggles a role field still
creates a user-role account. -/
theorem register_creates_role_user_witness :
    (handle ext0 db0 (.register ⟨some "new@x", some "pw", some "admin"⟩)).1.status = 201 ∧
    ∃ u : User,
      (handle ext0 db0 (.register ⟨some "new@x", some "pw", some "admin"⟩)).2.users =
        db0.users ++ [u] ∧ u.role = "user" :=
  ⟨by decide,
    register_creates_role_user ext0 db0 ⟨some "new@x", some "pw", some "admin"⟩
      (by decide)⟩

unseal String.splitOnAux in
/-- Witness for C9: an admin completes pickup a of db0 twice. -/
theorem complete_idempotent_witness :
    authMiddleware ext0.verify (some "Bearer admintok") = some ⟨3, "admin"⟩ ∧
    ((⟨3, "admin"⟩ : Claims).role = "admin" ∨ (⟨3, "admin"⟩ : Claims).role = "driver") ∧
    (∃ p ∈ db0.pickups, p.id = "a") ∧
    ((handle ext0 db0 (.complete (some "Bearer admintok") "a")).1.status = 200 ∧
    (handle ext0 (handle ext0 db0 (.complete (some "Bearer admintok") "a")).2
        (.complete (some "Bearer admintok") "a")).1.status = 200 ∧
    (handle ext0 (handle ext0 db0 (.complete (some "Bearer admintok") "a")).2
        (.complete (some "Bearer admintok") "a")).2 =
      (handle ext0 db0 (.complete (some "Bearer admintok") "a")).2) :=
  ⟨by decide, Or.inl rfl, by decide,
    complete_idempotent ext0 db0 (some "Bearer admintok") ⟨3, "admin"⟩ "a"
      (by decide) (Or.inl rfl) (by decide)⟩

/-- A state with one NGO linked to login account 1, for the C10 witness. -/
def dbN1 : DB where
  users := []
  pickups := []
  ngos := [⟨7, 1, "Green Earth", "Plants trees"⟩]
  donations := []
  nextUserId := 0
  nextPickupId := 0
  nextNgoId := 8

/-- The same state with the NGO linked to login account 2 instead. -/
def dbN2 : DB := { dbN1 with ngos := [⟨7, 2, "Green Earth", "Plants trees"⟩] }

/-- Witness for C10: two states differing only in the linked user id of the
stored NGO receive the same GET /api/ngos response. -/
theorem ngos_response_independent_witness :
    dbN1.ngos.length = dbN2.ngos.length ∧
    (∀ i (h1 : i < dbN1.ngos.length) (h2 : i < dbN2.ngos.length),
      (dbN1.ngos.get ⟨i, h1⟩).id = (dbN2.ngos.get ⟨i, h2⟩).id ∧
      (dbN1.ngos.get ⟨i, h1⟩).name = (dbN2.ngos.get ⟨i, h2⟩).name ∧
      (dbN1.ngos.get ⟨i, h1⟩).description = (dbN2.ngos.get ⟨i, h2⟩).description) ∧
    (handle ext0 dbN1 (.getNgos none)).1 = (handle ext0 dbN2 (.getNgos none)).1 :=
  ⟨rfl, by decide,
    ngos_response_independent_of_user_links ext0 none dbN1 dbN2 rfl (by decide)⟩

end Waste
